import Mathlib

/-!
Shallow embedding of the core subsystems of the grymbb Telegram bot:
the tic-tac-toe game engine and the game manager (`src/modules/games.rs`),
and the cross-session relay dispatcher, message builders and the
inline-echo requester loop (`src/main.rs`), together with theorems
settling the specification claims about them.

Conventions of the embedding:
* Rust `i64`/`i32` become `Int`; `usize` becomes `Nat`.
* `HashMap<i64, Player>` becomes an association list `List (Int × Player)`;
  the program only ever inserts fresh keys, looks keys up, removes keys and
  iterates, so an association list models it faithfully (for two players the
  iteration-order question of `keys().find` does not arise: there is at most
  one other key).
* A Rust panic (unchecked indexing, `unwrap`/`expect`) is modelled by
  returning `none` from an `Option`-valued function.
* Fallible platform calls are modelled by `Except` valued oracles.
-/

/-- The symbol table, `const SYMBOLS: [char; 3]` in the source:
`SYMBOLS 0` is the circle given to the session creator, `SYMBOLS 1` the
cross given to joiners, `SYMBOLS 2` the red square marking an empty cell.
Indices other than `0`, `1`, `2` never occur in the program. -/
def SYMBOLS (i : Nat) : Char :=
  [Char.ofNat 0x2B55, Char.ofNat 0x274C, Char.ofNat 0x1F7E5].getD i (Char.ofNat 0)

/-- The player (struct `Player` in `games.rs`). `Player::new` derives its
fields from a platform `Chat`; the claims only ever need players built
directly from an id, a symbol and a first name. -/
structure Player where
  id : Int
  symbol : Char
  first_name : String
deriving DecidableEq, Repr

/-- The game state (enum `State` in `games.rs`). -/
inductive State where
  | Start
  | Playing
  | End
deriving DecidableEq, Repr

/-- Lookup in the players map, `HashMap::get`. -/
def assocGet (m : List (Int × Player)) (k : Int) : Option Player :=
  (m.find? (fun kv => kv.1 == k)).map (fun kv => kv.2)

/-- Key membership in the players map, `HashMap::contains_key`. -/
def assocContains (m : List (Int × Player)) (k : Int) : Bool :=
  m.any (fun kv => kv.1 == k)

/-- `HashMap::insert`. The program only inserts keys it has just checked to
be absent, in which case this appends the new binding. -/
def assocInsert (m : List (Int × Player)) (k : Int) (v : Player) : List (Int × Player) :=
  if assocContains m k then
    m.map (fun kv => if kv.1 == k then (k, v) else kv)
  else
    m ++ [(k, v)]

/-- `HashMap::remove` (ignoring the returned old value, as the source does). -/
def assocRemove (m : List (Int × Player)) (k : Int) : List (Int × Player) :=
  m.filter (fun kv => kv.1 != k)

/-- The tic tac toe game (struct `TicTacToe` in `games.rs`). -/
structure TicTacToe where
  id : Int
  board : List (List Char)
  players : List (Int × Player)
  state : State
  winner : Option Int
  last_player : Int
  current_player : Int
deriving DecidableEq, Repr

/-- `TicTacToe::switch_player`: move to the first player id different from
the current one; if none remains the current player becomes the sentinel 0. -/
def TicTacToe.switch_player (g : TicTacToe) : TicTacToe :=
  match g.players.find? (fun kv => kv.1 != g.current_player) with
  | some kv => { g with last_player := g.current_player, current_player := kv.1 }
  | none => { g with last_player := g.current_player, current_player := 0 }

/-- `TicTacToe::new(id, players)`. `players[0]` panics on an empty vector,
modelled by `none`. The first player's id fixes who receives `SYMBOLS 0`
and becomes the current player; everyone else receives `SYMBOLS 1`.
`players.into_iter().map(|p| (p.id(), p)).collect()` is modelled by the
association list in the same order (the collected map is only ever used
through key lookups, and the symbol a binding carries is a function of its
key alone, so binding order is unobservable). -/
def TicTacToe.new (id : Int) (players : List Player) : Option TicTacToe :=
  match players.head? with
  | none => none
  | some first =>
    let first_player_id := first.id
    let players := players.map (fun p =>
      if p.id == first_player_id then { p with symbol := SYMBOLS 0 }
      else { p with symbol := SYMBOLS 1 })
    some
      { id := id
        board := []
        players := players.map (fun p => (p.id, p))
        state := State.Start
        winner := none
        last_player := 0
        current_player := first_player_id }

/-- `TicTacToe::generate_board(size)`: `size` is a `RangeInclusive`, whose
`start()` gives the column count and `end()` the length of each column. -/
def TicTacToe.generate_board (g : TicTacToe) (columns rows : Nat) : TicTacToe :=
  { g with board := List.replicate columns (List.replicate rows (SYMBOLS 2)) }

/-- The game (enum `Game` in `games.rs`); tic tac toe is its only variant. -/
inductive Game where
  | TicTacToe (g : TicTacToe)
deriving DecidableEq, Repr

/-- `Game::id`. -/
def Game.id : Game → Int
  | .TicTacToe g => g.id

/-- Short-circuiting conjunction over board cells at the given
`(column, row)` index pairs, as produced by `Iterator::all` over unchecked
indexing: an out-of-bounds access before the first mismatching cell is a
panic (`none`); a mismatching cell stops the scan with `false` before later
indices are touched. -/
def allCells (board : List (List Char)) (symbol : Char) : List (Nat × Nat) → Option Bool
  | [] => some true
  | p :: rest =>
    match board[p.1]?.bind (fun row => row[p.2]?) with
    | none => none
    | some c => if c == symbol then allCells board symbol rest else some false

/-- The column scan of `Game::play`: `for i in 0..board_size` tests whether
every column list has `symbol` at index `i` (`g.board.iter().all(|row| row[i] == symbol)`).
The `for` loop visits every `i` even after a hit, so a panic at a later `i`
still aborts the whole play. -/
def colsScan (board : List (List Char)) (symbol : Char) (n : Nat) : Option Bool :=
  (List.range n).foldlM
    (fun acc i =>
      (allCells board symbol ((List.range n).map (fun j => (j, i)))).map (fun b => acc || b))
    false

/-- The draw test of `Game::play`: no cell still holds the empty symbol. -/
def boardFull (board : List (List Char)) : Bool :=
  board.all (fun row => row.all (fun s => s != SYMBOLS 2))

/-- `Game::play(column, row)`. Returns `none` on a panic (unchecked board
indexing out of bounds), otherwise `some (accepted, updated game)`.
Mirrors the source order: current-player lookup, unchecked read of
`board[column][row]`, the empty test, the write, the four winner scans on
the updated board, the end-state update, the draw test, and an
unconditional `switch_player` before returning `true`. -/
def Game.play (g : Game) (column row : Nat) : Option (Bool × Game) :=
  match g with
  | .TicTacToe g =>
    match assocGet g.players g.current_player with
    | none => some (false, .TicTacToe g)
    | some player =>
      let symbol := player.symbol
      match g.board[column]? with
      | none => none
      | some colCells =>
        match colCells[row]? with
        | none => none
        | some cell =>
          if cell == SYMBOLS 2 then
            let board := g.board.set column (colCells.set row symbol)
            let rowsWin := board.any (fun row => row.all (fun s => s == symbol))
            let board_size := board.length
            match colsScan board symbol board_size with
            | none => none
            | some colsWin =>
              match allCells board symbol ((List.range board_size).map (fun i => (i, i))) with
              | none => none
              | some diagWin =>
                match
                  allCells board symbol
                    ((List.range board_size).map (fun i => (board_size - i - 1, i))) with
                | none => none
                | some adiagWin =>
                  let winner :=
                    if rowsWin || colsWin || diagWin || adiagWin then some player.id else none
                  let g1 :=
                    match winner with
                    | some id => { g with board := board, winner := some id, state := State.End }
                    | none =>
                      if boardFull board then { g with board := board, state := State.End }
                      else { g with board := board }
                  some (true, .TicTacToe g1.switch_player)
          else
            some (false, .TicTacToe g)

/-- `Game::board`. -/
def Game.board : Game → List (List Char)
  | .TicTacToe g => g.board

/-- `Game::players` (the map's values). -/
def Game.players : Game → List Player
  | .TicTacToe g => g.players.map (fun kv => kv.2)

/-- `Game::is_over`. -/
def Game.is_over : Game → Bool
  | .TicTacToe g => g.state == State.End

/-- `Game::get_player`. -/
def Game.get_player (g : Game) (id : Int) : Option Player :=
  match g with
  | .TicTacToe g => assocGet g.players id

/-- `Game::winner`: the stored winner id resolved through the players map
(`self.get_player(g.winner?)` in the source). -/
def Game.winner (g : Game) : Option Player :=
  match g with
  | .TicTacToe g => g.winner.bind (fun id => assocGet g.players id)

/-- `Game::has_player`. -/
def Game.has_player (g : Game) (id : Int) : Bool :=
  match g with
  | .TicTacToe g => assocContains g.players id

/-- `Game::players_limit`. -/
def Game.players_limit : Game → Nat
  | .TicTacToe _ => 2

/-- `Game::add_player`: reject an already-seated player or a full session
untouched; otherwise overwrite the joiner's symbol with `SYMBOLS 1`, insert
it and set the state to `Playing`. -/
def Game.add_player (g : Game) (player : Player) : Bool × Game :=
  let limit := g.players_limit
  match g with
  | .TicTacToe g =>
    if assocContains g.players player.id then
      (false, .TicTacToe g)
    else if limit ≤ g.players.length then
      (false, .TicTacToe g)
    else
      let player := { player with symbol := SYMBOLS 1 }
      (true, .TicTacToe
        { g with players := assocInsert g.players player.id player, state := State.Playing })

/-- `Game::remove_player`. -/
def Game.remove_player (g : Game) (id : Int) : Game :=
  match g with
  | .TicTacToe g => .TicTacToe { g with players := assocRemove g.players id }

/-- `Game::current_player`. -/
def Game.current_player (g : Game) : Option Player :=
  match g with
  | .TicTacToe g => assocGet g.players g.current_player

/-- `Game::switch_player`. -/
def Game.switch_player (g : Game) : Game :=
  match g with
  | .TicTacToe g => .TicTacToe g.switch_player

/-- `Game::available_seats`. -/
def Game.available_seats (g : Game) : Nat :=
  g.players_limit - g.players.length

/-- `Game::set_current_player`. -/
def Game.set_current_player (g : Game) (id : Int) : Game :=
  match g with
  | .TicTacToe g => .TicTacToe { g with current_player := id }

/-- The game manager's backing collection, `Vec<Game>` behind the lock.
Each public operation acquires the lock for its own duration only, so the
manager's sequential behaviour is the behaviour of these pure functions. -/
def GameManager := List Game

/-- `GameManager::new_id`: one past the id of the most recently pushed game
still present (`games.last()`), `0 + 1` when the collection is empty. -/
def GameManager.new_id (games : GameManager) : Int :=
  (match games.getLast? with
   | some g => g.id
   | none => 0) + 1

/-- `GameManager::add_game` (`Vec::push`). -/
def GameManager.add_game (games : GameManager) (game : Game) : GameManager :=
  List.concat games game

/-- `GameManager::get_game`: the first stored game with the given id,
cloned (a detached copy — in this pure embedding every value is detached). -/
def GameManager.get_game (games : GameManager) (game_id : Int) : Option Game :=
  games.find? (fun g => g.id == game_id)

/-- `GameManager::update_game`: overwrite the first stored game carrying
`game.id`; the source `expect`s when no such entry exists, modelled by `none`. -/
def GameManager.update_game (games : GameManager) (game : Game) : Option GameManager :=
  match games with
  | [] => none
  | g :: gs =>
    if g.id == game.id then some (game :: gs)
    else (GameManager.update_game gs game).map (fun r => g :: r)

/-- `GameManager::remove_game` (`Vec::retain`). -/
def GameManager.remove_game (games : GameManager) (game : Game) : GameManager :=
  games.filter (fun g => g.id != game.id)

/-- The recipient of a relay request (enum `Recipient` in `main.rs`):
which session handle executes the action. -/
inductive Recipient where
  | Bot
  | User
deriving DecidableEq, Repr

/-- The action of a relay request (enum `Action` in `main.rs`; Mathlib
already occupies the name `Action`). Chats and input messages are opaque
payloads; the claims only compare them, so both are modelled as strings. -/
inductive RelayAction where
  | SendMessage (chat : String) (input : String)
  | SendViaBotMessage (chat : String) (input : String)
  | EditMessage (chat : String) (message_id : Int) (input : String)
  | Undefined
deriving DecidableEq, Repr

/-- A relay request (struct `Message` in `main.rs`). -/
structure RelayMessage where
  action : RelayAction
  recipient : Recipient
deriving DecidableEq, Repr

/-- `Message::to_bot`. -/
def RelayMessage.to_bot : RelayMessage :=
  { action := RelayAction.Undefined, recipient := Recipient.Bot }

/-- `Message::to_user`. -/
def RelayMessage.to_user : RelayMessage :=
  { action := RelayAction.Undefined, recipient := Recipient.User }

/-- `Message::send_message`. -/
def RelayMessage.send_message (m : RelayMessage) (chat input : String) : RelayMessage :=
  { m with action := RelayAction.SendMessage chat input }

/-- `Message::send_via_bot_message`: panics (`none`) when the recipient is
`User`, otherwise attaches the via-bot action. -/
def RelayMessage.send_via_bot_message (m : RelayMessage) (chat input : String) :
    Option RelayMessage :=
  if m.recipient == Recipient.User then none
  else some { m with action := RelayAction.SendViaBotMessage chat input }

/-- `Message::edit_message`. -/
def RelayMessage.edit_message (m : RelayMessage) (chat : String) (message_id : Int)
    (input : String) : RelayMessage :=
  { m with action := RelayAction.EditMessage chat message_id input }

/-- The relay requests producible through the builder API of `Message`
(its fields are private to `main.rs`, so the four builder methods are the
only way the rest of the program can shape a request). -/
inductive BuiltMessage : RelayMessage → Prop where
  | to_bot : BuiltMessage RelayMessage.to_bot
  | to_user : BuiltMessage RelayMessage.to_user
  | send_message {m : RelayMessage} (chat input : String) :
      BuiltMessage m → BuiltMessage (m.send_message chat input)
  | send_via_bot_message {m m' : RelayMessage} (chat input : String) :
      BuiltMessage m → m.send_via_bot_message chat input = some m' → BuiltMessage m'
  | edit_message {m : RelayMessage} (chat : String) (message_id : Int) (input : String) :
      BuiltMessage m → BuiltMessage (m.edit_message chat message_id input)

/-- The session-handle calls the dispatcher can execute, recorded as a trace. -/
inductive SessionCall where
  | bot_send (chat input : String)
  | user_send (chat input : String)
  | bot_edit (chat : String) (message_id : Int) (input : String)
  | user_edit (chat : String) (message_id : Int) (input : String)
  | via_bot (chat input : String)
  | log_undefined
deriving DecidableEq, Repr

/-- The two session handles plus the via-bot round trip, as oracles whose
outcome the platform decides. `via_bot` stands for the responder half of
the inline-echo protocol executed inside the dispatcher loop (its
`query.answer(..).send().await.unwrap()` turns a platform error into a
panic of the dispatcher task, so a failing outcome ends the loop just as a
`?` propagation does). -/
structure SessionHandles where
  bot_send : String → String → Except String Unit
  user_send : String → String → Except String Unit
  bot_edit : String → Int → String → Except String Unit
  user_edit : String → Int → String → Except String Unit
  via_bot : String → String → Except String Unit

/-- Prefix a successfully executed call onto a dispatcher run's trace. -/
def consCall (c : SessionCall) (r : List SessionCall × Option String) :
    List SessionCall × Option String :=
  (c :: r.1, r.2)

/-- The receive loop of `handle_message` in `main.rs`, drained over a queue
prefix. Returns the trace of completed session calls and, when a platform
call failed, the error that ended the loop: every `send`/`edit` is awaited
with `?`, so its error propagates out of the loop, and the via-bot
responder `unwrap`s, so its error likewise ends the task; only an
`Undefined` action is merely logged before the loop continues. -/
def handle_message (h : SessionHandles) : List RelayMessage → List SessionCall × Option String
  | [] => ([], none)
  | m :: rest =>
    match m.action with
    | RelayAction.SendMessage chat input =>
      match m.recipient with
      | Recipient.Bot =>
        match h.bot_send chat input with
        | Except.error e => ([], some e)
        | Except.ok _ => consCall (SessionCall.bot_send chat input) (handle_message h rest)
      | Recipient.User =>
        match h.user_send chat input with
        | Except.error e => ([], some e)
        | Except.ok _ => consCall (SessionCall.user_send chat input) (handle_message h rest)
    | RelayAction.SendViaBotMessage chat input =>
      match h.via_bot chat input with
      | Except.error e => ([], some e)
      | Except.ok _ => consCall (SessionCall.via_bot chat input) (handle_message h rest)
    | RelayAction.EditMessage chat message_id input =>
      match m.recipient with
      | Recipient.Bot =>
        match h.bot_edit chat message_id input with
        | Except.error e => ([], some e)
        | Except.ok _ =>
          consCall (SessionCall.bot_edit chat message_id input) (handle_message h rest)
      | Recipient.User =>
        match h.user_edit chat message_id input with
        | Except.error e => ([], some e)
        | Except.ok _ =>
          consCall (SessionCall.user_edit chat message_id input) (handle_message h rest)
    | RelayAction.Undefined => consCall SessionCall.log_undefined (handle_message h rest)

/-- One observation of the requester task's poll of the inline result
stream (`results.next().await` in the `SendViaBotMessage` arm). -/
inductive InlineEvent where
  | result (title : Option String)
  | empty
  | timeout
  | fatal
deriving DecidableEq, Repr

/-- How the requester task's loop ends. -/
inductive RequesterOutcome where
  | sent (title : String)
  | skipped (title : String)
  | panicked
  | aborted
  | pending
deriving DecidableEq, Repr

/-- The requester task's polling loop, over the observed prefix of the
result stream: an empty poll or a `BOT_RESPONSE_TIMEOUT` sleeps a second
and retries; any delivered result ends the loop — it is sent exactly when
its title equals the nonce (`skipped` is the `break` reached without a
send, `panicked` the `title().unwrap()` of a titleless result); any other
error is logged and aborts; `pending` means the observed prefix ran out
with the loop still polling. -/
def requester_loop (nonce : String) : List InlineEvent → RequesterOutcome
  | [] => RequesterOutcome.pending
  | InlineEvent.result none :: _ => RequesterOutcome.panicked
  | InlineEvent.result (some title) :: _ =>
    if title == nonce then RequesterOutcome.sent title else RequesterOutcome.skipped title
  | InlineEvent.empty :: rest => requester_loop nonce rest
  | InlineEvent.timeout :: rest => requester_loop nonce rest
  | InlineEvent.fatal :: _ => RequesterOutcome.aborted

/-- A rectangular board: every column list is as long as the board itself,
the shape `generate_board(n..=n)` produces and the only shape the program
builds (the plugin calls `generate_board(3..=3)`). -/
abbrev Square (board : List (List Char)) : Prop :=
  ∀ row ∈ board, row.length = board.length

/-- The cell at `(column, row)`, when in bounds. -/
def cellAt (board : List (List Char)) (column row : Nat) : Option Char :=
  board[column]?.bind (fun cells => cells[row]?)

/-- Specification-side reading of the win scan: some column list is
uniformly `symbol`, or some index is `symbol` across every column list, or
one of the two diagonals is uniformly `symbol`. -/
def hasLine (board : List (List Char)) (symbol : Char) : Bool :=
  board.any (fun row => row.all (fun s => s == symbol)) ||
  (List.range board.length).any (fun i =>
    (List.range board.length).all (fun j => cellAt board j i == some symbol)) ||
  (List.range board.length).all (fun i => cellAt board i i == some symbol) ||
  (List.range board.length).all (fun i =>
    cellAt board (board.length - i - 1) i == some symbol)

/-- A concrete player used to instantiate the theorems. -/
def samplePlayer1 : Player :=
  { id := 1, symbol := SYMBOLS 0, first_name := "P1" }

/-- A second concrete player used to instantiate the theorems. -/
def samplePlayer2 : Player :=
  { id := 2, symbol := SYMBOLS 1, first_name := "P2" }

/-- Run a sequence of moves, keeping the updated game of each play
(the handler's `game.play` then `update_game` cycle). -/
def playSeq (g : Game) (moves : List (Nat × Nat)) : Option Game :=
  moves.foldlM (fun g mv => (Game.play g mv.1 mv.2).map (fun r => r.2)) g

/-- A two-player session exactly as the `/ttt` handler creates it from a
reply: `TicTacToe::new` on both players followed by `generate_board(3..=3)`. -/
def sampleStart : Option Game :=
  (TicTacToe.new 1 [samplePlayer1, samplePlayer2]).map
    (fun t => Game.TicTacToe (t.generate_board 3 3))

/-- A single-player session as the `/ttt` handler creates it without a
reply: only the creator is seated. -/
def sampleSolo : Option Game :=
  (TicTacToe.new 1 [samplePlayer1]).map (fun t => Game.TicTacToe (t.generate_board 3 3))

/-- Fold a list of joiners through `add_player`, keeping each call's
updated session. -/
def addAll (g : Game) (ps : List Player) : Game :=
  ps.foldl (fun g p => (Game.add_player g p).2) g

/-- Session handles whose bot-side send fails on chat "a" and succeeds
elsewhere; all other calls succeed. -/
def sampleHandles : SessionHandles :=
  { bot_send := fun chat _ => if chat == "a" then Except.error "send failed" else Except.ok ()
    user_send := fun _ _ => Except.ok ()
    bot_edit := fun _ _ _ => Except.ok ()
    user_edit := fun _ _ _ => Except.ok ()
    via_bot := fun _ _ => Except.ok () }

/-- Session handles every one of whose platform calls fails, with a
distinct error per arm. -/
def sampleFailHandles : SessionHandles :=
  { bot_send := fun _ _ => Except.error "bot send failed"
    user_send := fun _ _ => Except.error "user send failed"
    bot_edit := fun _ _ _ => Except.error "bot edit failed"
    user_edit := fun _ _ _ => Except.error "user edit failed"
    via_bot := fun _ _ => Except.error "via bot failed" }

/-- A manager fixture: a game carrying just an id, as stored by the manager. -/
def gameWithId (id : Int) : Game :=
  Game.TicTacToe
    { id := id, board := [], players := [], state := State.Start, winner := none,
      last_player := 0, current_player := 0 }

/-- The fresh session `TicTacToe::new(1, vec![samplePlayer1])` produces:
board not yet generated, the creator seated with the circle and current. -/
def sampleFreshTTT : TicTacToe :=
  { id := 1, board := [],
    players := [(1, { id := 1, symbol := SYMBOLS 0, first_name := "P1" })],
    state := State.Start, winner := none, last_player := 0, current_player := 1 }

/-- `sampleStart`'s payload: the two-player session after `generate_board(3..=3)`. -/
def sampleStartTTT : TicTacToe :=
  { id := 1,
    board := List.replicate 3 (List.replicate 3 (SYMBOLS 2)),
    players := [(1, { id := 1, symbol := SYMBOLS 0, first_name := "P1" }),
                (2, { id := 2, symbol := SYMBOLS 1, first_name := "P2" })],
    state := State.Start, winner := none, last_player := 0, current_player := 1 }

/-- `sampleStartTTT` after player 1's accepted move at `(0, 0)`. -/
def sampleAfterTTT : TicTacToe :=
  { id := 1,
    board := [[SYMBOLS 0, SYMBOLS 2, SYMBOLS 2],
              List.replicate 3 (SYMBOLS 2), List.replicate 3 (SYMBOLS 2)],
    players := [(1, { id := 1, symbol := SYMBOLS 0, first_name := "P1" }),
                (2, { id := 2, symbol := SYMBOLS 1, first_name := "P2" })],
    state := State.Start, winner := none, last_player := 1, current_player := 2 }

/-- `sampleFreshTTT` after `add_player(samplePlayer2)` is accepted. -/
def sampleJoinedTTT : TicTacToe :=
  { id := 1, board := [],
    players := [(1, { id := 1, symbol := SYMBOLS 0, first_name := "P1" }),
                (2, { id := 2, symbol := SYMBOLS 1, first_name := "P2" })],
    state := State.Playing, winner := none, last_player := 0, current_player := 1 }

theorem switch_player_fields (g : TicTacToe) :
    g.switch_player.state = g.state ∧ g.switch_player.winner = g.winner ∧
    g.switch_player.board = g.board ∧ g.switch_player.players = g.players ∧
    g.switch_player.last_player = g.current_player := by
  unfold TicTacToe.switch_player
  split <;> simp

theorem assocGet_insert_fresh (m : List (Int × Player)) (k : Int) (v : Player)
    (h : assocContains m k = false) : assocGet (assocInsert m k v) k = some v := by
  rw [assocInsert, if_neg (by simp [h])]
  induction m with
  | nil => simp [assocGet]
  | cons kv m ih =>
    have hkv : (kv.1 == k) = false := by
      have := (List.any_eq_false ..).mp h kv (by simp)
      simpa using this
    have hm : assocContains m k = false := by
      rw [assocContains, List.any_eq_false]
      intro x hx
      exact (List.any_eq_false ..).mp h x (by simp [hx])
    simp only [List.cons_append, assocGet, List.find?_cons, hkv] at *
    exact ih hm

theorem assocInsert_fresh_length (m : List (Int × Player)) (k : Int) (v : Player)
    (h : assocContains m k = false) : (assocInsert m k v).length = m.length + 1 := by
  rw [assocInsert, if_neg (by simp [h])]
  simp

theorem cellAt_isSome_of_square (board : List (List Char)) (hsq : Square board)
    {j i : Nat} (hj : j < board.length) (hi : i < board.length) :
    (cellAt board j i).isSome = true := by
  unfold cellAt
  rw [List.getElem?_eq_getElem hj]
  have hmem : board[j] ∈ board := List.getElem_mem hj
  have hlen : board[j].length = board.length := hsq _ hmem
  simp only [Option.some_bind]
  rw [List.getElem?_eq_getElem (by omega)]
  rfl

theorem square_set (board : List (List Char)) (c r : Nat) (colCells : List Char) (symbol : Char)
    (hsq : Square board) (hcol : board[c]? = some colCells) :
    Square (board.set c (colCells.set r symbol)) := by
  intro row hrow
  rw [List.length_set]
  rcases List.mem_or_eq_of_mem_set hrow with h | h
  · exact hsq row h
  · subst h
    rw [List.length_set]
    exact hsq _ (List.getElem?_mem hcol)

theorem allCells_eq_all (board : List (List Char)) (symbol : Char) (pairs : List (Nat × Nat))
    (h : ∀ p ∈ pairs, (cellAt board p.1 p.2).isSome = true) :
    allCells board symbol pairs =
      some (pairs.all (fun p => cellAt board p.1 p.2 == some symbol)) := by
  induction pairs with
  | nil => simp [allCells]
  | cons p rest ih =>
    obtain ⟨c, hc⟩ := Option.isSome_iff_exists.mp (h p (by simp))
    have hc' : board[p.1]?.bind (fun row => row[p.2]?) = some c := hc
    rw [allCells, hc', List.all_cons]
    unfold cellAt
    rw [hc']
    by_cases hcs : c = symbol
    · subst hcs
      simp only [beq_self_eq_true, if_true, Bool.true_and]
      exact ih (fun q hq => h q (by simp [hq]))
    · simp [hcs]

theorem foldlM_or_eq_any (f : Nat → Option Bool) (b : Nat → Bool) (l : List Nat)
    (h : ∀ i ∈ l, f i = some (b i)) (acc : Bool) :
    l.foldlM (fun acc i => (f i).map (fun x => acc || x)) acc = some (acc || l.any b) := by
  induction l generalizing acc with
  | nil => simp
  | cons i l ih =>
    rw [List.foldlM_cons, h i (by simp), Option.map_some']
    have step : (some (acc || b i) >>= fun x => l.foldlM (fun acc i => (f i).map (fun x => acc || x)) x) = l.foldlM (fun acc i => (f i).map (fun x => acc || x)) (acc || b i) := rfl
    rw [step, ih (fun j hj => h j (by simp [hj]))]
    simp [Bool.or_assoc]

theorem list_all_map {α β : Type} (f : α → β) (l : List α) (p : β → Bool) :
    (l.map f).all p = l.all (fun a => p (f a)) := by
  induction l <;> simp_all

theorem colsScan_eq (board : List (List Char)) (symbol : Char) (hsq : Square board) :
    colsScan board symbol board.length =
      some ((List.range board.length).any (fun i =>
        (List.range board.length).all (fun j => cellAt board j i == some symbol))) := by
  unfold colsScan
  rw [foldlM_or_eq_any
    (fun i => allCells board symbol ((List.range board.length).map (fun j => (j, i))))
    (fun i => (List.range board.length).all (fun j => cellAt board j i == some symbol))]
  · simp
  · intro i hi
    rw [allCells_eq_all]
    · rw [list_all_map]
    · intro p hp
      obtain ⟨j, hj, rfl⟩ := List.mem_map.mp hp
      exact cellAt_isSome_of_square board hsq (List.mem_range.mp hj) (List.mem_range.mp hi)

theorem diagScan_eq (board : List (List Char)) (symbol : Char) (hsq : Square board) :
    allCells board symbol ((List.range board.length).map (fun i => (i, i))) =
      some ((List.range board.length).all (fun i => cellAt board i i == some symbol)) := by
  rw [allCells_eq_all]
  · rw [list_all_map]
  · intro p hp
    obtain ⟨i, hi, rfl⟩ := List.mem_map.mp hp
    exact cellAt_isSome_of_square board hsq (List.mem_range.mp hi) (List.mem_range.mp hi)

theorem adiagScan_eq (board : List (List Char)) (symbol : Char) (hsq : Square board) :
    allCells board symbol ((List.range board.length).map (fun i => (board.length - i - 1, i))) =
      some ((List.range board.length).all (fun i =>
        cellAt board (board.length - i - 1) i == some symbol)) := by
  rw [allCells_eq_all]
  · rw [list_all_map]
  · intro p hp
    obtain ⟨i, hi, rfl⟩ := List.mem_map.mp hp
    have hi' := List.mem_range.mp hi
    exact cellAt_isSome_of_square board hsq (by omega) hi'

theorem play_accepted_inversion (t : TicTacToe) (column row : Nat) (res : Game)
    (h : Game.play (Game.TicTacToe t) column row = some (true, res)) :
    ∃ player colCells cell,
      assocGet t.players t.current_player = some player ∧
      t.board[column]? = some colCells ∧ colCells[row]? = some cell ∧ cell = SYMBOLS 2 := by
  unfold Game.play at h
  split at h
  rename_i t0 heq
  injection heq with heq
  subst heq
  split at h
  · simp at h
  · rename_i player hp
    split at h
    · simp at h
    · rename_i colCells hcol
      split at h
      · simp at h
      · rename_i cell hrow
        split at h
        · rename_i hcell
          exact ⟨player, colCells, cell, hp, hcol, hrow, by simpa using hcell⟩
        · simp at h

theorem play_false_unchanged (g g' : Game) (column row : Nat)
    (h : Game.play g column row = some (false, g')) : g' = g := by
  cases g with
  | TicTacToe t =>
    unfold Game.play at h
    split at h
    rename_i t0 heq
    injection heq with heq
    subst heq
    split at h
    · simp at h
      exact h.symm
    · split at h
      · simp at h
      · split at h
        · simp at h
        · split at h
          · dsimp only at h
            split at h
            · simp at h
            · split at h
              · simp at h
              · split at h
                · simp at h
                · simp at h
          · simp at h
            exact h.symm

theorem hasLine_unfold (board : List (List Char)) (symbol : Char) :
    (board.any (fun row => row.all (fun s => s == symbol)) ||
     (List.range board.length).any (fun i =>
       (List.range board.length).all (fun j => cellAt board j i == some symbol)) ||
     (List.range board.length).all (fun i => cellAt board i i == some symbol) ||
     (List.range board.length).all (fun i =>
       cellAt board (board.length - i - 1) i == some symbol)) = hasLine board symbol := rfl

theorem play_accepted_eq (t : TicTacToe) (player : Player) (column row : Nat)
    (colCells : List Char) (cell : Char)
    (hsq : Square t.board)
    (hcp : assocGet t.players t.current_player = some player)
    (hcol : t.board[column]? = some colCells)
    (hrow : colCells[row]? = some cell)
    (hcell : cell = SYMBOLS 2) :
    Game.play (Game.TicTacToe t) column row =
      some (true, Game.TicTacToe
        (TicTacToe.switch_player
          (if hasLine (t.board.set column (colCells.set row player.symbol)) player.symbol then
            { t with board := t.board.set column (colCells.set row player.symbol),
                     winner := some player.id, state := State.End }
           else if boardFull (t.board.set column (colCells.set row player.symbol)) then
            { t with board := t.board.set column (colCells.set row player.symbol),
                     state := State.End }
           else { t with board := t.board.set column (colCells.set row player.symbol) }))) := by
  have hsq1 : Square (t.board.set column (colCells.set row player.symbol)) :=
    square_set t.board column row colCells player.symbol hsq hcol
  have hcols := colsScan_eq _ player.symbol hsq1
  have hdiag := diagScan_eq _ player.symbol hsq1
  have hadiag := adiagScan_eq _ player.symbol hsq1
  unfold Game.play
  simp only [hcp, hcol, hrow, hcell, beq_self_eq_true, if_true]
  rw [hcols, hdiag, hadiag]
  dsimp only
  rw [hasLine_unfold]
  by_cases hl : hasLine (t.board.set column (colCells.set row player.symbol)) player.symbol = true
  · rw [if_pos hl, if_pos hl]
  · rw [if_neg hl, if_neg hl]

theorem recipient_of_send_via_bot {m m' : RelayMessage} (chat input : String)
    (heq : m.send_via_bot_message chat input = some m') :
    m'.recipient = m.recipient ∧ m.recipient = Recipient.Bot := by
  unfold RelayMessage.send_via_bot_message at heq
  split at heq
  · simp at heq
  · rename_i hrec
    obtain rfl := Option.some.inj heq
    refine ⟨rfl, ?_⟩
    cases hm : m.recipient with
    | Bot => rfl
    | User => simp [hm] at hrec

/-- Claim C9: a relay request with a `SendViaBot` action is constructible
only with recipient `ToBot`: attaching it to a `ToUser` request panics at
construction time (`none`), and no request reachable through the builder
API carries a `SendViaBot` action with recipient `ToUser`, so such a
request can never be drained by the dispatcher. -/
theorem claim_C9_theorem :
    (∀ (m : RelayMessage) (chat input : String), m.recipient = Recipient.User →
      m.send_via_bot_message chat input = none) ∧
    (∀ m : RelayMessage, BuiltMessage m → ∀ chat input : String,
      m.action = RelayAction.SendViaBotMessage chat input → m.recipient = Recipient.Bot) := by
  constructor
  · intro m chat input h
    simp [RelayMessage.send_via_bot_message, h]
  · intro m hm
    induction hm with
    | to_bot => intro chat input _; rfl
    | to_user =>
      intro chat input h
      simp [RelayMessage.to_user] at h
    | send_message chat input _ _ =>
      intro c i h
      simp [RelayMessage.send_message] at h
    | send_via_bot_message chat input _ heq _ =>
      intro c i _
      have h2 := recipient_of_send_via_bot chat input heq
      exact h2.1.trans h2.2
    | edit_message chat message_id input _ _ =>
      intro c i h
      simp [RelayMessage.edit_message] at h

/-- Witness for C9 at concrete inputs: the `ToUser` construction panics,
and a `ToBot`-built via-bot request indeed has recipient `Bot`. -/
theorem claim_C9_witness :
    RelayMessage.to_user.send_via_bot_message "chat" "msg" = none ∧
    (RelayMessage.mk (RelayAction.SendViaBotMessage "chat" "msg") Recipient.Bot).recipient =
      Recipient.Bot :=
  ⟨claim_C9_theorem.1 RelayMessage.to_user "chat" "msg" rfl,
   claim_C9_theorem.2 (RelayMessage.mk (RelayAction.SendViaBotMessage "chat" "msg") Recipient.Bot)
     (BuiltMessage.send_via_bot_message "chat" "msg" BuiltMessage.to_bot rfl) "chat" "msg" rfl⟩

/-- Claim C2 is refuted on the code: with session handles whose bot-side
send fails on chat "a" and succeeds on chat "b", a queue holding a failing
request followed by a request that would succeed ends with the error
propagated out of the receive loop and an empty call trace — the second
request is never executed, although alone it would be. -/
theorem claim_C2_counterexample :
    handle_message sampleHandles
      [RelayMessage.to_bot.send_message "a" "x", RelayMessage.to_bot.send_message "b" "y"] =
      ([], some "send failed") ∧
    handle_message sampleHandles [RelayMessage.to_bot.send_message "b" "y"] =
      ([SessionCall.bot_send "b" "y"], none) := by
  constructor <;> rfl

/-- Claim C2 amended: a failure of any single relay request's execution
terminates the receive loop — each of the four send/edit arms awaits with
`?`, and the via-bot responder's `unwrap` panics the task on a failed
answer (whatever the request's recipient), so in every case the error ends
the loop and no later queued request is processed; only an `Undefined`
action (for either recipient) is merely logged before the loop continues. -/
theorem claim_C2_theorem :
    (∀ (h : SessionHandles) (chat input : String) (rest : List RelayMessage) (e : String),
      h.bot_send chat input = Except.error e →
      handle_message h (RelayMessage.to_bot.send_message chat input :: rest) = ([], some e)) ∧
    (∀ (h : SessionHandles) (chat input : String) (rest : List RelayMessage) (e : String),
      h.user_send chat input = Except.error e →
      handle_message h (RelayMessage.to_user.send_message chat input :: rest) = ([], some e)) ∧
    (∀ (h : SessionHandles) (chat : String) (message_id : Int) (input : String)
        (rest : List RelayMessage) (e : String),
      h.bot_edit chat message_id input = Except.error e →
      handle_message h (RelayMessage.to_bot.edit_message chat message_id input :: rest) =
        ([], some e)) ∧
    (∀ (h : SessionHandles) (chat : String) (message_id : Int) (input : String)
        (rest : List RelayMessage) (e : String),
      h.user_edit chat message_id input = Except.error e →
      handle_message h (RelayMessage.to_user.edit_message chat message_id input :: rest) =
        ([], some e)) ∧
    (∀ (h : SessionHandles) (m : RelayMessage) (chat input : String)
        (rest : List RelayMessage) (e : String),
      m.action = RelayAction.SendViaBotMessage chat input →
      h.via_bot chat input = Except.error e →
      handle_message h (m :: rest) = ([], some e)) ∧
    (∀ (h : SessionHandles) (m : RelayMessage) (rest : List RelayMessage),
      m.action = RelayAction.Undefined →
      handle_message h (m :: rest) =
        (SessionCall.log_undefined :: (handle_message h rest).1, (handle_message h rest).2)) := by
  refine ⟨?_, ?_, ?_, ?_, ?_, ?_⟩
  · intro h chat input rest e he
    simp [handle_message, RelayMessage.send_message, RelayMessage.to_bot, he]
  · intro h chat input rest e he
    simp [handle_message, RelayMessage.send_message, RelayMessage.to_user, he]
  · intro h chat message_id input rest e he
    simp [handle_message, RelayMessage.edit_message, RelayMessage.to_bot, he]
  · intro h chat message_id input rest e he
    simp [handle_message, RelayMessage.edit_message, RelayMessage.to_user, he]
  · intro h m chat input rest e ha he
    obtain ⟨action, recipient⟩ := m
    simp only at ha
    subst ha
    simp [handle_message, he]
  · intro h m rest ha
    obtain ⟨action, recipient⟩ := m
    simp only at ha
    subst ha
    simp [handle_message, consCall]

/-- Witness for C2 at concrete inputs: each arm of the dispatcher, given a
failing platform call, ends the loop with that error and an empty trace —
in particular the queued second request of the first conjunct is dropped. -/
theorem claim_C2_witness :
    handle_message sampleHandles
      [RelayMessage.to_bot.send_message "a" "x", RelayMessage.to_bot.send_message "b" "y"] =
      ([], some "send failed") ∧
    handle_message sampleFailHandles [RelayMessage.to_user.send_message "c" "x"] =
      ([], some "user send failed") ∧
    handle_message sampleFailHandles [RelayMessage.to_bot.edit_message "c" 5 "x"] =
      ([], some "bot edit failed") ∧
    handle_message sampleFailHandles [RelayMessage.to_user.edit_message "c" 5 "x"] =
      ([], some "user edit failed") ∧
    handle_message sampleFailHandles
      [RelayMessage.mk (RelayAction.SendViaBotMessage "c" "x") Recipient.Bot] =
      ([], some "via bot failed") :=
  ⟨claim_C2_theorem.1 sampleHandles "a" "x" [RelayMessage.to_bot.send_message "b" "y"]
     "send failed" rfl,
   claim_C2_theorem.2.1 sampleFailHandles "c" "x" [] "user send failed" rfl,
   claim_C2_theorem.2.2.1 sampleFailHandles "c" 5 "x" [] "bot edit failed" rfl,
   claim_C2_theorem.2.2.2.1 sampleFailHandles "c" 5 "x" [] "user edit failed" rfl,
   claim_C2_theorem.2.2.2.2.1 sampleFailHandles
     (RelayMessage.mk (RelayAction.SendViaBotMessage "c" "x") Recipient.Bot) "c" "x" []
     "via bot failed" rfl rfl⟩

/-- Claim C3 is refuted on the code: `new_id` only looks at the last stored
game, so after `new_id` returns 2, game 2 is added and then removed,
`new_id` returns 2 again — an id that was returned and added is reissued,
and successive `new_id` values are not strictly increasing. -/
theorem claim_C3_counterexample :
    GameManager.new_id [] = 1 ∧
    GameManager.new_id (GameManager.add_game [] (gameWithId 1)) = 2 ∧
    GameManager.new_id
      (GameManager.remove_game
        (GameManager.add_game (GameManager.add_game [] (gameWithId 1)) (gameWithId 2))
        (gameWithId 2)) = 2 := by
  refine ⟨rfl, rfl, ?_⟩
  rfl

/-- Claim C3 amended: `new_id` is one past the id of the most recently
stored game (so 1 on an empty manager), and in a remove-free history in
which each issued id is added, `new_id` grows by exactly one per add,
hence is strictly increasing; ids can only be reissued after removals. -/
theorem claim_C3_theorem :
    GameManager.new_id [] = 1 ∧
    (∀ (games : GameManager) (game : Game), game.id = GameManager.new_id games →
      GameManager.new_id (GameManager.add_game games game) = GameManager.new_id games + 1) := by
  constructor
  · rfl
  · intro games game hid
    unfold GameManager.new_id GameManager.add_game
    rw [List.concat_eq_append, List.getLast?_concat]
    dsimp only
    rw [hid]
    unfold GameManager.new_id
    rfl

/-- Witness for C3 at concrete inputs. -/
theorem claim_C3_witness :
    GameManager.new_id (GameManager.add_game [gameWithId 1] (gameWithId 2)) =
      GameManager.new_id [gameWithId 1] + 1 :=
  claim_C3_theorem.2 [gameWithId 1] (gameWithId 2) rfl

/-- Claim C4 is refuted on the code: polling does not continue past a
delivered result whose title differs from the nonce — the loop breaks at
the first delivered result, so with a mismatched result ahead of the
matching one, nothing is ever sent. -/
theorem claim_C4_counterexample :
    requester_loop "7" [InlineEvent.result (some "5"), InlineEvent.result (some "7")] =
      RequesterOutcome.skipped "5" ∧
    RequesterOutcome.skipped "5" ≠ RequesterOutcome.sent "7" := by
  constructor
  · rfl
  · simp

/-- Claim C4 amended: whatever the requester loop sends has title equal to
the nonce, the loop keeps polling through empty results and transient
timeouts, but it stops at the first delivered result whether or not its
title matches (a mismatched result ends the round trip unserved). -/
theorem claim_C4_theorem :
    (∀ (nonce : String) (events : List InlineEvent) (title : String),
      requester_loop nonce events = RequesterOutcome.sent title → title = nonce) ∧
    (∀ (nonce title : String) (events : List InlineEvent),
      requester_loop nonce (InlineEvent.result (some title) :: events) =
        (if title == nonce then RequesterOutcome.sent title
         else RequesterOutcome.skipped title)) ∧
    (∀ (nonce : String) (events : List InlineEvent),
      requester_loop nonce (InlineEvent.empty :: events) = requester_loop nonce events) ∧
    (∀ (nonce : String) (events : List InlineEvent),
      requester_loop nonce (InlineEvent.timeout :: events) = requester_loop nonce events) := by
  refine ⟨?_, fun _ _ _ => rfl, fun _ _ => rfl, fun _ _ => rfl⟩
  intro nonce events title h
  induction events with
  | nil => simp [requester_loop] at h
  | cons ev rest ih =>
    cases ev with
    | result t =>
      cases t with
      | none => simp [requester_loop] at h
      | some t0 =>
        unfold requester_loop at h
        split at h
        · rename_i ht
          obtain rfl := RequesterOutcome.sent.inj h
          simpa using ht
        · simp at h
    | empty => exact ih h
    | timeout => exact ih h
    | fatal => simp [requester_loop] at h

/-- Witness for C4 at concrete inputs: a sent result's title equals the nonce. -/
theorem claim_C4_witness : "7" = "7" :=
  claim_C4_theorem.1 "7" [InlineEvent.result (some "7")] "7" rfl

/-- Claim C7: a rejected `add_player` (already-seated player or full
session) leaves the session entirely unchanged, and no sequence of
`add_player` calls can push a session that respects the two-seat limit
beyond it. -/
theorem claim_C7_theorem :
    (∀ (g : Game) (p : Player),
      (Game.add_player g p).1 = false → (Game.add_player g p).2 = g) ∧
    (∀ (g : Game) (ps : List Player),
      (Game.players g).length ≤ Game.players_limit g →
      (Game.players (addAll g ps)).length ≤ Game.players_limit g) ∧
    (∀ (g : Game) (p : Player),
      Game.players_limit g ≤ (Game.players g).length → (Game.add_player g p).1 = false) ∧
    (∀ (t : TicTacToe) (p : Player),
      assocContains t.players p.id = true →
      (Game.add_player (Game.TicTacToe t) p).1 = false) := by
  refine ⟨?_, ?_, ?_, ?_⟩
  case refine_3 =>
    intro g p hfull
    cases g with
    | TicTacToe t =>
      simp only [Game.players, Game.players_limit, List.length_map] at hfull
      simp only [Game.add_player, Game.players_limit]
      split
      · rfl
      · rfl
  case refine_4 =>
    intro t p hseated
    simp only [Game.add_player]
    rw [if_pos hseated]
  · intro g p hfalse
    cases g with
    | TicTacToe t =>
      simp only [Game.add_player, Game.players_limit] at hfalse ⊢
      split
      · rfl
      · split
        · rfl
        · rename_i hc hl
          rw [if_neg hc, if_neg hl] at hfalse
          simp at hfalse
  · intro g ps
    induction ps generalizing g with
    | nil => intro h; exact h
    | cons p ps ih =>
      intro h
      have hlim : Game.players_limit (Game.add_player g p).2 = Game.players_limit g := by
        cases hr : (Game.add_player g p).2 with
        | TicTacToe t2 => cases g with | TicTacToe t => rfl
      have hstep : (Game.players (Game.add_player g p).2).length ≤ Game.players_limit g := by
        cases g with
        | TicTacToe t =>
          simp only [Game.players, Game.players_limit, List.length_map, Game.add_player] at h ⊢
          split
          · simpa using h
          · split
            · simpa using h
            · rename_i hc hl
              simp only [List.length_map]
              rw [assocInsert_fresh_length t.players p.id _ (by simpa using hc)]
              omega
      have hrec := ih (Game.add_player g p).2 (hlim ▸ hstep)
      rw [hlim] at hrec
      simpa [addAll] using hrec

/-- Witness for C7 at concrete inputs: re-adding a seated player is
rejected without mutation, and flooding an empty session with three
joiners still seats at most two. -/
theorem claim_C7_witness :
    (Game.add_player (addAll (gameWithId 1) [samplePlayer1, samplePlayer2]) samplePlayer1).2 =
      addAll (gameWithId 1) [samplePlayer1, samplePlayer2] ∧
    (Game.players (addAll (gameWithId 1)
        [samplePlayer1, samplePlayer2,
         { id := 3, symbol := SYMBOLS 0, first_name := "P3" }])).length ≤
      Game.players_limit (gameWithId 1) :=
  ⟨claim_C7_theorem.1 (addAll (gameWithId 1) [samplePlayer1, samplePlayer2]) samplePlayer1
     (by decide),
   claim_C7_theorem.2.1 (gameWithId 1)
     [samplePlayer1, samplePlayer2, { id := 3, symbol := SYMBOLS 0, first_name := "P3" }]
     (by decide)⟩

/-- Claim C8: `get_game` hands back a detached copy (in this pure
embedding, a value), and committing an unmodified copy with `update_game`
reproduces the stored collection exactly. -/
theorem claim_C8_theorem (games : GameManager) (game_id : Int) (game : Game)
    (h : GameManager.get_game games game_id = some game) :
    GameManager.update_game games game = some games := by
  induction games with
  | nil => simp [GameManager.get_game] at h
  | cons g gs ih =>
    unfold GameManager.get_game at h
    rw [List.find?_cons] at h
    unfold GameManager.update_game
    by_cases hg : (g.id == game_id) = true
    · rw [hg] at h
      dsimp only at h
      obtain rfl := Option.some.inj h
      rw [if_pos (by simp)]
    · rw [Bool.not_eq_true] at hg
      rw [hg] at h
      dsimp only at h
      have hgameid : game.id = game_id := by simpa using List.find?_some h
      have hg' : g.id ≠ game_id := by simpa using hg
      rw [if_neg (by simp only [beq_iff_eq]; omega)]
      rw [ih h]
      rfl

/-- Witness for C8 at concrete inputs. -/
theorem claim_C8_witness :
    GameManager.update_game [gameWithId 1, gameWithId 2] (gameWithId 2) =
      some [gameWithId 1, gameWithId 2] :=
  claim_C8_theorem [gameWithId 1, gameWithId 2] 2 (gameWithId 2) (by decide)

/-- Claim C5 is refuted on the code: take the reachable session
`TicTacToe::new(7, vec![player 1])` followed by `remove_player(1)` — a
session in state `Start` with no seated players. Its first accepted
`add_player(player 2)` seats player 2 with the joiner symbol `SYMBOLS 1`
(the cross), not `SYMBOLS 0`, and leaves the current player as the departed
player 1, so `current_player()` is empty rather than the joiner. -/
theorem claim_C5_counterexample :
    ((TicTacToe.new 7 [samplePlayer1]).map
        (fun t => Game.remove_player (Game.TicTacToe t) 1)).map
        (fun g =>
          ((Game.players g).length,
           (match g with | Game.TicTacToe t => t.state),
           (Game.add_player g samplePlayer2).1,
           (match (Game.add_player g samplePlayer2).2 with | Game.TicTacToe t => t.state),
           (Game.get_player (Game.add_player g samplePlayer2).2 samplePlayer2.id).map
             Player.symbol,
           (Game.current_player (Game.add_player g samplePlayer2).2).map Player.id)) =
      some (0, State.Start, true, State.Playing, some (SYMBOLS 1), none) ∧
    SYMBOLS 1 ≠ SYMBOLS 0 ∧ samplePlayer2.id = 2 := by
  refine ⟨rfl, by decide, rfl⟩

/-- Claim C5 amended: the creator's seat is assigned by `TicTacToe::new`,
not by `add_player` — the first player of the construction vector receives
`SYMBOLS 0` and becomes current in state `Start`; every `add_player` joiner
receives `SYMBOLS 1`, and each accepted call sets the state to `Playing`
while leaving the current player untouched. -/
theorem claim_C5_theorem :
    (∀ (id : Int) (ps : List Player) (t : TicTacToe), TicTacToe.new id ps = some t →
      ∃ p, ps.head? = some p ∧ t.current_player = p.id ∧ t.state = State.Start ∧
        (assocGet t.players p.id).map Player.symbol = some (SYMBOLS 0)) ∧
    (∀ (t t' : TicTacToe) (p : Player),
      Game.add_player (Game.TicTacToe t) p = (true, Game.TicTacToe t') →
      t'.state = State.Playing ∧ t'.current_player = t.current_player ∧
      assocGet t'.players p.id = some { p with symbol := SYMBOLS 1 }) := by
  constructor
  · intro id ps t hnew
    cases ps with
    | nil => simp [TicTacToe.new] at hnew
    | cons first rest =>
      refine ⟨first, rfl, ?_⟩
      unfold TicTacToe.new at hnew
      dsimp only [List.head?] at hnew
      obtain rfl := (Option.some.inj hnew).symm
      refine ⟨rfl, rfl, ?_⟩
      dsimp only
      unfold assocGet
      rw [List.map_cons, List.map_cons, List.find?_cons]
      rw [if_pos (by simp)]
      dsimp only
      simp
  · intro t t' p hadd
    simp only [Game.add_player, Game.players_limit] at hadd
    split at hadd
    · simp at hadd
    · split at hadd
      · simp at hadd
      · rename_i hc hl
        have h2 := congrArg Prod.snd hadd
        dsimp only at h2
        injection h2 with h2
        subst h2
        refine ⟨rfl, rfl, ?_⟩
        exact assocGet_insert_fresh t.players p.id _ (by simpa using hc)

/-- Witness for C5 at concrete inputs: the constructor seats the creator
with the circle as current player, and an accepted `add_player` seats the
joiner with the cross, switches the state to `Playing`, and leaves the
current player alone. -/
theorem claim_C5_witness :
    (∃ p, List.head? [samplePlayer1] = some p ∧ sampleFreshTTT.current_player = p.id ∧
      sampleFreshTTT.state = State.Start ∧
      (assocGet sampleFreshTTT.players p.id).map Player.symbol = some (SYMBOLS 0)) ∧
    (sampleJoinedTTT.state = State.Playing ∧
      sampleJoinedTTT.current_player = sampleFreshTTT.current_player ∧
      assocGet sampleJoinedTTT.players samplePlayer2.id =
        some { samplePlayer2 with symbol := SYMBOLS 1 }) :=
  ⟨claim_C5_theorem.1 1 [samplePlayer1] sampleFreshTTT (by decide),
   claim_C5_theorem.2 sampleFreshTTT sampleJoinedTTT samplePlayer2 (by decide)⟩

/-- Claim C10 is refuted on the code as universally stated: out-of-range
coordinates panic only when a current player is seated. In the reachable
session below (creator plays alone, so `switch_player` falls to the
sentinel id 0, which is seated by nobody), `play(5, 5)` on the 3-by-3
board returns `false` instead of panicking. -/
theorem claim_C10_counterexample :
    ((sampleSolo.bind (fun g => (Game.play g 0 0).map (fun r => r.2))).bind
        (fun g => Game.play g 5 5)).map (fun r => r.1) = some false ∧
    (sampleSolo.bind (fun g => (Game.play g 0 0).map (fun r => r.2))).map
        (fun g => ((Game.board g).length, (Game.current_player g).isSome)) =
      some (3, false) ∧
    some false ≠ (none : Option Bool) := by
  refine ⟨rfl, rfl, by simp⟩

/-- Claim C10 amended: with a seated current player, `play` on
out-of-bounds coordinates panics via unchecked indexing (in particular on a
fresh session whose board was never generated); with no seated current
player it instead returns `false` with the session unchanged. -/
theorem claim_C10_theorem :
    (∀ (t : TicTacToe) (column row : Nat),
      (assocGet t.players t.current_player).isSome = true →
      cellAt t.board column row = none →
      Game.play (Game.TicTacToe t) column row = none) ∧
    (∀ (t : TicTacToe) (column row : Nat),
      assocGet t.players t.current_player = none →
      Game.play (Game.TicTacToe t) column row = some (false, Game.TicTacToe t)) := by
  constructor
  · intro t column row hp hcell
    obtain ⟨player, hplayer⟩ := Option.isSome_iff_exists.mp hp
    unfold Game.play
    simp only [hplayer]
    unfold cellAt at hcell
    cases hcol : t.board[column]? with
    | none => simp [hcol]
    | some colCells =>
      rw [hcol] at hcell
      simp only [Option.some_bind] at hcell
      simp [hcol, hcell]
  · intro t column row hp
    unfold Game.play
    simp [hp]

/-- Witness for C10 at concrete inputs: a freshly constructed session
(board not yet generated) panics on `play(0, 0)`. -/
theorem claim_C10_witness :
    TicTacToe.new 1 [samplePlayer1] = some sampleFreshTTT ∧
    Game.play (Game.TicTacToe sampleFreshTTT) 0 0 = none :=
  ⟨by decide, claim_C10_theorem.1 sampleFreshTTT 0 0 (by decide) (by decide)⟩

/-- Claim C1 is refuted on the code: `play` never consults the game state.
Replaying the session to a finished position (player 2 completes a column,
state becomes `End`), a further move by player 1 on an empty cell is still
accepted. -/
theorem claim_C1_counterexample :
    (sampleStart.bind (fun g => playSeq g [(0,0),(1,0),(0,1),(1,1),(2,2),(1,2)])).map
        Game.is_over = some true ∧
    ((sampleStart.bind (fun g => playSeq g [(0,0),(1,0),(0,1),(1,1),(2,2),(1,2)])).bind
        (fun g => Game.play g 2 0)).map Prod.fst = some true := by
  constructor <;> rfl

/-- Claim C1 amended: on a rectangular board with in-bounds coordinates,
`play` accepts exactly when a player is seated under the current-player id
and the addressed cell is empty — the game state is not consulted, so an
`End`-state session still accepts moves; and whenever `play` returns
`false`, the session is returned unchanged. -/
theorem claim_C1_theorem :
    (∀ (t : TicTacToe) (column row : Nat) (colCells : List Char) (cell : Char),
      Square t.board →
      t.board[column]? = some colCells → colCells[row]? = some cell →
      ((Game.play (Game.TicTacToe t) column row).map Prod.fst = some true ↔
        ((assocGet t.players t.current_player).isSome = true ∧ cell = SYMBOLS 2))) ∧
    (∀ (g g' : Game) (column row : Nat),
      Game.play g column row = some (false, g') → g' = g) := by
  constructor
  · intro t column row colCells cell hsq hcol hrow
    constructor
    · intro hacc
      cases hplay : Game.play (Game.TicTacToe t) column row with
      | none => rw [hplay] at hacc; simp at hacc
      | some r =>
        rw [hplay] at hacc
        obtain ⟨b, g2⟩ := r
        simp only [Option.map_some'] at hacc
        obtain rfl : b = true := Option.some.inj hacc
        obtain ⟨player, colCells2, cell2, hp, hcol2, hrow2, hcell2⟩ :=
          play_accepted_inversion t column row g2 hplay
        rw [hcol] at hcol2
        obtain rfl := Option.some.inj hcol2
        rw [hrow] at hrow2
        obtain rfl := Option.some.inj hrow2
        exact ⟨by simp [hp], hcell2⟩
    · rintro ⟨hp, rfl⟩
      obtain ⟨player, hplayer⟩ := Option.isSome_iff_exists.mp hp
      rw [play_accepted_eq t player column row colCells (SYMBOLS 2) hsq hplayer hcol hrow rfl]
      rfl
  · intro g g' column row h
    exact play_false_unchanged g g' column row h

/-- Witness for C1 at concrete inputs: on the fresh two-player 3-by-3
session, the opening move at `(0, 0)` is accepted. -/
theorem claim_C1_witness :
    (Game.play (Game.TicTacToe sampleStartTTT) 0 0).map Prod.fst = some true :=
  (claim_C1_theorem.1 sampleStartTTT 0 0 (List.replicate 3 (SYMBOLS 2)) (SYMBOLS 2)
      (by decide) (by decide) (by decide)).mpr ⟨by decide, rfl⟩

/-- Claim C6 is refuted on the code in its "and only otherwise is
switchPlayer invoked" part: replaying the specification's own scenario
(player 1 takes the whole first column), the winning move still switches
the current player — `winner()` is player 1 but `current_player()` has
moved on to player 2. -/
theorem claim_C6_counterexample :
    (sampleStart.bind (fun g => playSeq g [(0,0),(1,1),(0,1),(2,2),(0,2)])).map
        (fun g => (Game.is_over g, (Game.winner g).map Player.id,
                   (Game.current_player g).map Player.id)) =
      some (true, some 1, some 2) ∧ (2 : Int) ≠ 1 := by
  refine ⟨rfl, by omega⟩

/-- Claim C6 amended: on an accepted move over a rectangular board the
moved cell holds the mover's symbol, the seats are untouched, and the win
scan over all columns, rows and both diagonals drives the outcome — a
uniform line of the mover's symbol ends the game with the mover recorded
as winner, a full board without such a line ends it with no winner, and
otherwise state and winner are unchanged; but `switch_player` runs on
every accepted move (witnessed by `last_player` taking the mover's id),
not only when the game continues. -/
theorem claim_C6_theorem (t t' : TicTacToe) (column row : Nat) (player : Player)
    (hsq : Square t.board) (hw : t.winner = none)
    (hcp : assocGet t.players t.current_player = some player)
    (hacc : Game.play (Game.TicTacToe t) column row = some (true, Game.TicTacToe t')) :
    cellAt t'.board column row = some player.symbol ∧
    t'.players = t.players ∧
    (hasLine t'.board player.symbol = true →
      t'.state = State.End ∧ t'.winner = some player.id) ∧
    (hasLine t'.board player.symbol = false → boardFull t'.board = true →
      t'.state = State.End ∧ t'.winner = none) ∧
    (hasLine t'.board player.symbol = false → boardFull t'.board = false →
      t'.state = t.state ∧ t'.winner = none) ∧
    t'.last_player = t.current_player := by
  obtain ⟨player2, colCells, cell, hp2, hcol, hrow, hcell⟩ :=
    play_accepted_inversion t column row (Game.TicTacToe t') hacc
  rw [hcp] at hp2
  obtain rfl := Option.some.inj hp2
  rw [play_accepted_eq t player column row colCells cell hsq hcp hcol hrow hcell] at hacc
  have ht' := Game.TicTacToe.inj (Prod.mk.inj (Option.some.inj hacc)).2
  subst ht'
  have hc : column < t.board.length := by
    rcases List.getElem?_eq_some.mp hcol with ⟨h, _⟩
    exact h
  have hr : row < colCells.length := by
    rcases List.getElem?_eq_some.mp hrow with ⟨h, _⟩
    exact h
  have hXb : (TicTacToe.switch_player
      (if hasLine (t.board.set column (colCells.set row player.symbol)) player.symbol then
        { t with board := t.board.set column (colCells.set row player.symbol),
                 winner := some player.id, state := State.End }
       else if boardFull (t.board.set column (colCells.set row player.symbol)) then
        { t with board := t.board.set column (colCells.set row player.symbol),
                 state := State.End }
       else { t with board := t.board.set column (colCells.set row player.symbol) })).board =
      t.board.set column (colCells.set row player.symbol) := by
    rw [(switch_player_fields _).2.2.1]
    split
    · rfl
    · split <;> rfl
  rw [hXb]
  refine ⟨?_, ?_, ?_, ?_, ?_, ?_⟩
  · unfold cellAt
    rw [List.getElem?_set_self (by simpa using hc)]
    simp only [Option.some_bind]
    rw [List.getElem?_set_self hr]
  · rw [(switch_player_fields _).2.2.2.1]
    split
    · rfl
    · split <;> rfl
  · intro hl
    rw [(switch_player_fields _).1, (switch_player_fields _).2.1]
    rw [if_pos hl]
    exact ⟨rfl, rfl⟩
  · intro hl hf
    rw [(switch_player_fields _).1, (switch_player_fields _).2.1]
    rw [if_neg (by simp [hl]), if_pos hf]
    exact ⟨rfl, hw⟩
  · intro hl hf
    rw [(switch_player_fields _).1, (switch_player_fields _).2.1]
    rw [if_neg (by simp [hl]), if_neg (by simp [hf])]
    exact ⟨rfl, hw⟩
  · rw [(switch_player_fields _).2.2.2.2]
    split
    · rfl
    · split <;> rfl

/-- Witness for C6 at concrete inputs: player 1's accepted opening move on
the fresh two-player session. -/
theorem claim_C6_witness :
    cellAt sampleAfterTTT.board 0 0 = some samplePlayer1.symbol ∧
    sampleAfterTTT.players = sampleStartTTT.players ∧
    (hasLine sampleAfterTTT.board samplePlayer1.symbol = true →
      sampleAfterTTT.state = State.End ∧ sampleAfterTTT.winner = some samplePlayer1.id) ∧
    (hasLine sampleAfterTTT.board samplePlayer1.symbol = false →
      boardFull sampleAfterTTT.board = true →
      sampleAfterTTT.state = State.End ∧ sampleAfterTTT.winner = none) ∧
    (hasLine sampleAfterTTT.board samplePlayer1.symbol = false →
      boardFull sampleAfterTTT.board = false →
      sampleAfterTTT.state = sampleStartTTT.state ∧ sampleAfterTTT.winner = none) ∧
    sampleAfterTTT.last_player = sampleStartTTT.current_player :=
  claim_C6_theorem sampleStartTTT sampleAfterTTT 0 0 samplePlayer1
    (by decide) rfl (by decide) (by decide)
